import Mathlib

/-!
Verification of the variadic-signature core of `multipledispatch`
(`multipledispatch/variadic.py`).

The module manipulates Python type objects:
ordinary named classes, `typing.Union[...]` objects, the unbounded tuple
form `typing.Tuple[t, ...]`, instances of the metaclass
`VariadicSignatureType` (the variadic patterns produced by
`Variadic[...]`), and, in one error scenario, plain non-type values such
as `42`.  We embed exactly this universe of objects.  Per the spec
(section 3) the alternatives of a union are always ordinary named types
in this subsystem, so a union is carried as a list of names.

The external structural subtype checker `pytypes.is_subtype` is a
black-box collaborator; we embed its documented PEP 484 behaviour on the
fragment of type expressions this module builds: a primitive oracle
`sigma` on named classes, covariance of `Tuple[t, ...]` in `t`,
the conventional universal rule for a union on the left and the
existential rule for a union on the right.  The display label built via
`utils.typename` is diagnostics only and never consulted by equality,
hashing or subtype checks, so it is not carried in the model.
-/

/-- A Python object relevant to `variadic.py`: an ordinary named class,
a `typing.Union[...]` object (list of alternative class names), the type
`typing.Tuple[t, ...]`, an instance of `VariadicSignatureType` carrying
its `variadic_type` field, or a plain integer value (a non-type). -/
inductive Obj : Type where
  | ty : String → Obj
  | union : List String → Obj
  | tupleEllipsis : Obj → Obj
  | varsig : Obj → Obj
  | intval : Int → Obj
deriving DecidableEq, Repr

/-- `pytypes.is_Union`: recognises a `typing.Union[...]` object. -/
def is_Union : Obj → Bool
  | .union _ => true
  | _ => false

/-- `pytypes.get_Union_params`: the alternatives of a union object. -/
def get_Union_params : Obj → List String
  | .union ns => ns
  | _ => []

/-- Subtype test of a single named class against an object, under the
primitive oracle `sigma` on named classes: against a union the
existential union-on-the-right rule applies. -/
def atom_le_obj (sigma : String → String → Bool) (a : String) : Obj → Bool
  | .ty b => sigma a b
  | .union bs => bs.any (fun b => sigma a b)
  | _ => false

/-- The external structural checker `pytypes.is_subtype`, on the type
expressions this module constructs: `Tuple[a, ...]` is covariant in `a`,
a union on the left obeys the conventional universal rule (every
alternative must qualify), a named class is compared via
`atom_le_obj`.  Anything else (values, pattern objects, mixed kinds)
is not a subtype. -/
def is_subtype (sigma : String → String → Bool) : Obj → Obj → Bool
  | .tupleEllipsis a, .tupleEllipsis b => is_subtype sigma a b
  | .union as, b => as.all (fun a => atom_le_obj sigma a b)
  | .ty a, b => atom_le_obj sigma a b
  | _, _ => false

/-- `safe_subtype` from `variadic.py`: union safe subclass.  If `a` is a
union, true iff some alternative is a subtype of `b` (existential);
otherwise delegate to `pytypes.is_subtype`. -/
def safe_subtype (sigma : String → String → Bool) (a b : Obj) : Bool :=
  if is_Union a then
    (get_Union_params a).any (fun tp => is_subtype sigma (Obj.ty tp) b)
  else
    is_subtype sigma a b

/-- `isvariadic` from `variadic.py`: `isinstance(obj, VariadicSignatureType)`. -/
def isvariadic : Obj → Bool
  | .varsig _ => true
  | _ => false

/-- The `variadic_type` attribute of a pattern object; on other objects
the attribute is never read by the code we model. -/
def variadic_type_field : Obj → Obj
  | .varsig vt => vt
  | o => o

/-- `VariadicSignatureType.__subclasscheck__` from `variadic.py`:
with `other_type` the candidate itself or, for a pattern, its
`variadic_type`, return
`pytypes.is_subtype(Tuple[other_type, ...], Tuple[self.variadic_type, ...])`. -/
def subclasscheck (sigma : String → String → Bool)
    (self_variadic_type : Obj) (subclass : Obj) : Bool :=
  let other_type := if isvariadic subclass then variadic_type_field subclass
                    else subclass
  is_subtype sigma (Obj.tupleEllipsis other_type)
    (Obj.tupleEllipsis self_variadic_type)

/-- Equality of two lists of names viewed as sets, the comparison
`frozenset` equality that Python applies to the argument lists of two
`typing.Union` objects. -/
def setEqStr (a b : List String) : Bool :=
  a.all (fun x => b.contains x) && b.all (fun x => a.contains x)

/-- Python `==` on the embedded objects.  Named classes compare by name,
union objects by set equality of their alternatives, and
`VariadicSignatureType.__eq__` makes two pattern objects equal iff the
other operand is variadic and the `variadic_type` fields compare equal;
a pattern never equals a non-pattern. -/
def objEq : Obj → Obj → Bool
  | .ty a, .ty b => a == b
  | .union as, .union bs => setEqStr as bs
  | .tupleEllipsis a, .tupleEllipsis b => objEq a b
  | .varsig a, .varsig b => objEq a b
  | .intval a, .intval b => a == b
  | _, _ => false

/-- First-occurrence deduplication with an accumulator of names already
seen, as `typing.Union` deduplicates its argument tuple. -/
def dedupAux (seen : List String) : List String → List String
  | [] => []
  | n :: ns =>
    if seen.contains n then dedupAux seen ns
    else n :: dedupAux (n :: seen) ns

/-- Deduplication keeping the first occurrence of each name. -/
def dedupFirst (l : List String) : List String :=
  dedupAux [] l

/-- A hash of a name (stands for the host hash of a class object). -/
def strHash (s : String) : Nat :=
  s.toList.foldl (fun a c => a * 131 + c.toNat) 7

/-- Python `hash` on the embedded objects.  A union hashes like
`hash(frozenset(args))`: invariant under order and duplicates of its
alternatives.  `VariadicSignatureType.__hash__` is
`hash((type(self), self.variadic_type))`: a fixed class tag combined
with the hash of the `variadic_type` field. -/
def objHash : Obj → Nat
  | .ty n => strHash n
  | .union ns => 1000003 + ((dedupFirst ns).map strHash).sum
  | .tupleEllipsis a => 31 * objHash a + 17
  | .varsig a => 31 * objHash a + 57
  | .intval i => i.natAbs

/-- The two kinds of host error that `Variadic[...]` can surface: the
`ValueError` raised by the validation branch in
`VariadicSignatureMeta.__getitem__`, and the `TypeError` raised by the
host `typing` machinery. -/
inductive PyErr : Type where
  | valueError : String → PyErr
  | typeError : String → PyErr
deriving DecidableEq, Repr

/-- The argument of `Variadic[...]`: either a single object or a tuple
of objects (Python `isinstance(x, tuple)` distinguishes the two). -/
inductive GetItemArg : Type where
  | obj : Obj → GetItemArg
  | tup : List Obj → GetItemArg
deriving DecidableEq, Repr

/-- One argument of `typing.Union[...]`: a named class contributes its
name, a nested union is flattened, anything that is not a type (such as
the value `42`) raises `TypeError`. -/
def flattenUnionArg : Obj → Except PyErr (List String)
  | .ty n => .ok [n]
  | .union ns => .ok ns
  | _ => .error (.typeError "Union[arg, ...]: each arg must be a type")

/-- Flatten every argument of a `typing.Union[...]` application, left to
right, surfacing the first `TypeError`. -/
def flattenAll : List Obj → Except PyErr (List String)
  | [] => .ok []
  | o :: os =>
    match flattenUnionArg o with
    | .error e => .error e
    | .ok ns =>
      match flattenAll os with
      | .error e => .error e
      | .ok rest => .ok (ns ++ rest)

/-- `typing.Union[args]`: flatten, deduplicate keeping first
occurrences, reject an empty union, and collapse a singleton union to
the type itself. -/
def mkUnion (args : List Obj) : Except PyErr Obj :=
  match flattenAll args with
  | .error e => .error e
  | .ok parts =>
    match dedupFirst parts with
    | [] => .error (.typeError "Cannot take a Union of no types.")
    | [n] => .ok (.ty n)
    | ns => .ok (.union ns)

/-- `isinstance(variadic_type, (type, tuple))`: a named class and a
pattern object are types, a tuple is a tuple; a union object and a
plain value are neither. -/
def isinstance_type_or_tuple : GetItemArg → Bool
  | .obj (.ty _) => true
  | .obj (.varsig _) => true
  | .obj _ => false
  | .tup _ => true

/-- Python truthiness of `type(variadic_type)`: every object has a
class and class objects are always truthy, so this is constantly true. -/
def type_truthy (_ : GetItemArg) : Bool := true

/-- `VariadicSignatureMeta.__getitem__` from `variadic.py`, the factory
behind `Variadic[spec]`: the validation branch raises `ValueError` when
`not (isinstance(variadic_type, (type, tuple)) or type(variadic_type))`;
then a non-tuple argument is wrapped into a one-element tuple and a new
`VariadicSignatureType` is built whose `variadic_type` field is
`typing.Union[variadic_type]`. -/
def Variadic_getitem (variadic_type : GetItemArg) : Except PyErr Obj :=
  if !(isinstance_type_or_tuple variadic_type || type_truthy variadic_type) then
    .error (.valueError
      "Variadic types must be type or tuple of types (Variadic[int] or Variadic[(int, float)]")
  else
    let elems : List Obj :=
      match variadic_type with
      | .obj o => [o]
      | .tup os => os
    (mkUnion elems).map Obj.varsig

/-- The primitive oracle of a world of pairwise disjoint named classes:
a class is a subtype only of itself. -/
def nominalEq (a b : String) : Bool := a == b

/-- Run the factory on two arguments and compare the results with
Python `==` (false when either construction fails). -/
def createdEq (a b : GetItemArg) : Bool :=
  match Variadic_getitem a, Variadic_getitem b with
  | .ok p, .ok q => objEq p q
  | _, _ => false

/-- Run the factory on two arguments and compare the hashes of the
results (false when either construction fails). -/
def createdHashEq (a b : GetItemArg) : Bool :=
  match Variadic_getitem a, Variadic_getitem b with
  | .ok p, .ok q => objHash p == objHash q
  | _, _ => false

/-- Does a factory call surface the `ValueError` of the validation
branch? -/
def isValueError {α : Type} : Except PyErr α → Bool
  | .error (.valueError _) => true
  | _ => false

example : Variadic_getitem (.obj (.ty "Int")) = .ok (.varsig (.ty "Int")) := rfl
example : Variadic_getitem (.tup [.ty "Int", .ty "Str"])
    = .ok (.varsig (.union ["Int", "Str"])) := rfl
example : Variadic_getitem (.obj (.intval 42))
    = .error (.typeError "Union[arg, ...]: each arg must be a type") := rfl
example : subclasscheck nominalEq (.union ["Int", "Str"]) (.ty "Int") = true := by decide
example : subclasscheck nominalEq (.union ["Int", "Str"]) (.ty "Float") = false := by decide

lemma mem_dedupAux : ∀ (l seen : List String) (a : String),
    a ∈ dedupAux seen l ↔ (a ∈ l ∧ a ∉ seen) := by
  intro l
  induction l with
  | nil => intro seen a; simp [dedupAux]
  | cons n ns ih =>
    intro seen a
    by_cases hn : n ∈ seen
    · have hc : seen.contains n = true := List.elem_iff.mpr hn
      have hif : dedupAux seen (n :: ns) = dedupAux seen ns := by
        simp only [dedupAux, hc]
        exact if_pos trivial
      rw [hif, ih, List.mem_cons]
      constructor
      · exact fun ⟨h1, h2⟩ => ⟨Or.inr h1, h2⟩
      · rintro ⟨(rfl | h1), h2⟩
        · exact absurd hn h2
        · exact ⟨h1, h2⟩
    · have hc : seen.contains n = false := by
        rw [Bool.eq_false_iff]
        intro h
        exact hn (List.elem_iff.mp h)
      have hif : dedupAux seen (n :: ns) = n :: dedupAux (n :: seen) ns := by
        simp only [dedupAux, hc]
        exact if_neg (by simp)
      rw [hif]
      simp only [List.mem_cons, ih]
      constructor
      · rintro (rfl | ⟨h1, h2⟩)
        · exact ⟨Or.inl rfl, hn⟩
        · exact ⟨Or.inr h1, fun hs => h2 (Or.inr hs)⟩
      · rintro ⟨(rfl | h1), h2⟩
        · exact Or.inl rfl
        · by_cases han : a = n
          · exact Or.inl han
          · exact Or.inr ⟨h1, fun hs => hs.elim han h2⟩

lemma nodup_dedupAux : ∀ (l seen : List String), (dedupAux seen l).Nodup := by
  intro l
  induction l with
  | nil => intro seen; simp [dedupAux]
  | cons n ns ih =>
    intro seen
    by_cases hn : n ∈ seen
    · have hc : seen.contains n = true := List.elem_iff.mpr hn
      have hif : dedupAux seen (n :: ns) = dedupAux seen ns := by
        simp only [dedupAux, hc]
        exact if_pos trivial
      rw [hif]
      exact ih seen
    · have hc : seen.contains n = false := by
        rw [Bool.eq_false_iff]
        intro h
        exact hn (List.elem_iff.mp h)
      have hif : dedupAux seen (n :: ns) = n :: dedupAux (n :: seen) ns := by
        simp only [dedupAux, hc]
        exact if_neg (by simp)
      rw [hif]
      refine List.nodup_cons.mpr ⟨?_, ih (n :: seen)⟩
      intro hmem
      exact ((mem_dedupAux ns (n :: seen) n).mp hmem).2 (List.mem_cons_self n seen)

lemma setEqStr_mem {as bs : List String} (h : setEqStr as bs = true) (a : String) :
    a ∈ as ↔ a ∈ bs := by
  unfold setEqStr at h
  rw [Bool.and_eq_true] at h
  obtain ⟨h1, h2⟩ := h
  rw [List.all_eq_true] at h1
  rw [List.all_eq_true] at h2
  constructor
  · intro ha
    exact List.elem_iff.mp (h1 a ha)
  · intro hb
    exact List.elem_iff.mp (h2 a hb)

lemma dedup_sum_of_setEq {as bs : List String} (h : setEqStr as bs = true) :
    ((dedupFirst as).map strHash).sum = ((dedupFirst bs).map strHash).sum := by
  have hperm : (dedupFirst as).Perm (dedupFirst bs) := by
    unfold dedupFirst
    rw [List.perm_ext_iff_of_nodup (nodup_dedupAux as []) (nodup_dedupAux bs [])]
    intro a
    rw [mem_dedupAux, mem_dedupAux]
    simp [setEqStr_mem h a]
  exact (hperm.map strHash).sum_eq

lemma objEq_hash (p : Obj) : ∀ (q : Obj), objEq p q = true → objHash p = objHash q := by
  induction p with
  | ty n =>
    intro q h
    cases q <;> simp [objEq] at h
    subst h
    rfl
  | union ns =>
    intro q h
    cases q <;> simp [objEq] at h
    simp only [objHash]
    rw [dedup_sum_of_setEq h]
  | tupleEllipsis a ih =>
    intro q h
    cases q <;> simp [objEq] at h
    simp only [objHash]
    rw [ih _ h]
  | varsig a ih =>
    intro q h
    cases q <;> simp [objEq] at h
    simp only [objHash]
    rw [ih _ h]
  | intval i =>
    intro q h
    cases q <;> simp [objEq] at h
    subst h
    rfl

lemma mkUnion_ok_shape {args : List Obj} {u : Obj} (h : mkUnion args = .ok u) :
    (∃ n, u = Obj.ty n) ∨ (∃ ns, u = Obj.union ns) := by
  unfold mkUnion at h
  split at h
  · exact absurd h (by simp)
  · split at h
    · exact absurd h (by simp)
    · left
      injection h with h2
      exact ⟨_, h2.symm⟩
    · right
      injection h with h2
      exact ⟨_, h2.symm⟩

lemma getitem_obj (o : Obj) :
    Variadic_getitem (.obj o) = (mkUnion [o]).map Obj.varsig := by
  unfold Variadic_getitem
  simp [type_truthy]

lemma getitem_tup (os : List Obj) :
    Variadic_getitem (.tup os) = (mkUnion os).map Obj.varsig := by
  unfold Variadic_getitem
  simp [type_truthy]

lemma getitem_ok_varsig {arg : GetItemArg} {P : Obj}
    (h : Variadic_getitem arg = .ok P) :
    ∃ vt, P = Obj.varsig vt
      ∧ mkUnion (match arg with | .obj o => [o] | .tup os => os) = .ok vt := by
  cases arg with
  | obj o =>
    rw [getitem_obj] at h
    cases hm : mkUnion [o] with
    | error e =>
      rw [hm] at h
      simp [Except.map] at h
    | ok u =>
      rw [hm] at h
      have h2 : Obj.varsig u = P := by
        simpa [Except.map] using h
      exact ⟨u, h2.symm, rfl⟩
  | tup os =>
    rw [getitem_tup] at h
    cases hm : mkUnion os with
    | error e =>
      rw [hm] at h
      simp [Except.map] at h
    | ok u =>
      rw [hm] at h
      have h2 : Obj.varsig u = P := by
        simpa [Except.map] using h
      exact ⟨u, h2.symm, rfl⟩

lemma is_subtype_refl_flat (sigma : String → String → Bool)
    (hrefl : ∀ a, sigma a a = true) (vt : Obj)
    (hshape : (∃ n, vt = Obj.ty n) ∨ (∃ ns, vt = Obj.union ns)) :
    is_subtype sigma vt vt = true := by
  rcases hshape with ⟨n, rfl⟩ | ⟨ns, rfl⟩
  · simp [is_subtype, atom_le_obj, hrefl]
  · simp only [is_subtype, List.all_eq_true]
    intro a ha
    simp only [atom_le_obj, List.any_eq_true]
    exact ⟨a, ha, hrefl a⟩

lemma getitem_pair {a b : String} (h : (b == a) = false) :
    Variadic_getitem (GetItemArg.tup [Obj.ty a, Obj.ty b])
      = Except.ok (Obj.varsig (Obj.union [a, b])) := by
  rw [getitem_tup]
  simp [mkUnion, flattenAll, flattenUnionArg, dedupFirst, dedupAux,
    List.contains, List.elem, Except.map, h]

lemma getitem_triple {a b : String} (h : (b == a) = false)
    (h2 : (a == b) = false) :
    Variadic_getitem (GetItemArg.tup [Obj.ty a, Obj.ty b, Obj.ty a])
      = Except.ok (Obj.varsig (Obj.union [a, b])) := by
  rw [getitem_tup]
  simp [mkUnion, flattenAll, flattenUnionArg, dedupFirst, dedupAux,
    List.contains, List.elem, Except.map, h, h2]

lemma isValueError_error_congr {α β : Type} (e : PyErr) :
    isValueError (Except.error e : Except PyErr α)
      = isValueError (Except.error e : Except PyErr β) := by
  cases e <;> rfl

/-- Claim C1 (code bug finding): the factory applied to the non-type
value 42 does not fail with the documented construction error.  The
guard `not (isinstance(variadic_type, (type, tuple)) or
type(variadic_type))` in `VariadicSignatureMeta.__getitem__` is always
false because `type(x)` is truthy for every object, so the `ValueError`
naming the two accepted forms can never be raised; the call fails
instead with the `TypeError` raised by `typing.Union` on a non-type
argument.  First conjunct: the behaviour at the failing input 42.
Second conjunct: no input whatsoever surfaces the documented
construction error. -/
theorem C1_validation_branch_dead :
    Variadic_getitem (GetItemArg.obj (Obj.intval 42))
      = Except.error (PyErr.typeError "Union[arg, ...]: each arg must be a type")
    ∧ ∀ arg : GetItemArg, isValueError (Variadic_getitem arg) = false := by
  refine ⟨rfl, ?_⟩
  have h1 : ∀ o : Obj, isValueError (flattenUnionArg o) = false := by
    intro o
    cases o <;> rfl
  have hflat : ∀ os : List Obj, isValueError (flattenAll os) = false := by
    intro os
    induction os with
    | nil => rfl
    | cons o os ih =>
      rw [flattenAll]
      cases hfo : flattenUnionArg o with
      | error e =>
        have := h1 o
        rw [hfo] at this
        exact this
      | ok ns =>
        cases hfa : flattenAll os with
        | error e =>
          rw [hfa] at ih
          exact ih
        | ok rest => rfl
  have hmk : ∀ os : List Obj, isValueError (mkUnion os) = false := by
    intro os
    unfold mkUnion
    split
    · rename_i e heq
      have h0 := hflat os
      rw [heq] at h0
      exact (isValueError_error_congr e).trans h0
    · split <;> rfl
  have hmap : ∀ (e : Except PyErr Obj),
      isValueError (e.map Obj.varsig) = isValueError e := by
    intro e
    cases e with
    | error err => cases err <;> rfl
    | ok v => rfl
  intro arg
  cases arg with
  | obj o =>
    rw [getitem_obj, hmap]
    exact hmk [o]
  | tup os =>
    rw [getitem_tup, hmap]
    exact hmk os

/-- Claim C2: the Subtype Oracle `safe_subtype` is existential on a
union left argument — true iff some alternative is a subtype of the
right argument — and on any non-union left argument it delegates
unchanged to the external structural checker. -/
theorem C2_safe_subtype_union_existential (sigma : String → String → Bool) :
    (∀ (alts : List String) (b : Obj),
      safe_subtype sigma (Obj.union alts) b
        = alts.any (fun a => safe_subtype sigma (Obj.ty a) b))
    ∧ (∀ (a b : Obj), is_Union a = false →
      safe_subtype sigma a b = is_subtype sigma a b) := by
  constructor
  · intro alts b
    rfl
  · intro a b h
    cases a with
    | union ns => simp [is_Union] at h
    | ty n => rfl
    | tupleEllipsis t => rfl
    | varsig v => rfl
    | intval i => rfl

/-- Witness for C2: the two clauses at concrete disjoint classes. -/
theorem C2_safe_subtype_union_existential_witness :
    safe_subtype nominalEq (Obj.union ["A", "B"]) (Obj.ty "B")
      = List.any ["A", "B"] (fun a => safe_subtype nominalEq (Obj.ty a) (Obj.ty "B"))
    ∧ safe_subtype nominalEq (Obj.ty "A") (Obj.ty "B")
      = is_subtype nominalEq (Obj.ty "A") (Obj.ty "B") :=
  ⟨(C2_safe_subtype_union_existential nominalEq).1 ["A", "B"] (Obj.ty "B"),
   (C2_safe_subtype_union_existential nominalEq).2 (Obj.ty "A") (Obj.ty "B") rfl⟩

/-- Claim C3 is refuted at a concrete input: for the pattern
create((Int, Str)) and the union-typed candidate Union[Int, Float] over
pairwise disjoint classes, the compatibility check is false even though
one alternative of the candidate (Int) is admitted by the pattern — so
a union-typed candidate is not accepted existentially. -/
theorem C3_counterexample :
    Variadic_getitem (GetItemArg.tup [Obj.ty "Int", Obj.ty "Str"])
      = Except.ok (Obj.varsig (Obj.union ["Int", "Str"]))
    ∧ subclasscheck nominalEq (Obj.union ["Int", "Str"])
        (Obj.union ["Int", "Float"]) = false
    ∧ List.any ["Int", "Float"]
        (fun a => atom_le_obj nominalEq a (Obj.union ["Int", "Str"])) = true := by
  exact ⟨rfl, by decide, by decide⟩

/-- Claim C3 (amended): for an ordinary (non-pattern) candidate the
compatibility check equals the subtype test of Tuple[candidate, ...]
against Tuple[S, ...], and the Subtype Oracle delegates that test
unchanged to the external structural checker (a Tuple is not a union);
a union-typed candidate is therefore handled by the conventional
universal rule: accepted iff every alternative is admitted by S. -/
theorem C3_ordinary_candidate (sigma : String → String → Bool) :
    (∀ (S c : Obj), isvariadic c = false →
      subclasscheck sigma S c
        = safe_subtype sigma (Obj.tupleEllipsis c) (Obj.tupleEllipsis S))
    ∧ (∀ (S : Obj) (cs : List String),
      subclasscheck sigma S (Obj.union cs)
        = cs.all (fun a => atom_le_obj sigma a S)) := by
  constructor
  · intro S c h
    have h1 : subclasscheck sigma S c
        = is_subtype sigma (Obj.tupleEllipsis c) (Obj.tupleEllipsis S) := by
      unfold subclasscheck
      rw [h]
      simp
    rw [h1]
    rfl
  · intro S cs
    rfl

/-- Witness for C3 (amended) at a concrete input. -/
theorem C3_ordinary_candidate_witness :
    subclasscheck nominalEq (Obj.union ["Int", "Str"]) (Obj.ty "Int")
      = safe_subtype nominalEq (Obj.tupleEllipsis (Obj.ty "Int"))
          (Obj.tupleEllipsis (Obj.union ["Int", "Str"])) :=
  (C3_ordinary_candidate nominalEq).1 (Obj.union ["Int", "Str"]) (Obj.ty "Int") rfl

/-- Claim C4: pattern-to-pattern compatibility is containment of the
allowed sets: with target allowed set S and candidate allowed set C the
check equals the subtype test of Tuple[C, ...] against Tuple[S, ...],
which for a union C means every alternative of C is admitted by S; in
a world of pairwise disjoint classes, create(Int) is compatible with
target create((Int, Str)) while create((Int, Str)) is not compatible
with target create(Int). -/
theorem C4_pattern_to_pattern (sigma : String → String → Bool) :
    (∀ (S C : Obj), subclasscheck sigma S (Obj.varsig C)
        = is_subtype sigma (Obj.tupleEllipsis C) (Obj.tupleEllipsis S))
    ∧ (∀ (S : Obj) (cs : List String),
        subclasscheck sigma S (Obj.varsig (Obj.union cs))
          = cs.all (fun a => atom_le_obj sigma a S))
    ∧ Variadic_getitem (GetItemArg.obj (Obj.ty "Int"))
        = Except.ok (Obj.varsig (Obj.ty "Int"))
    ∧ Variadic_getitem (GetItemArg.tup [Obj.ty "Int", Obj.ty "Str"])
        = Except.ok (Obj.varsig (Obj.union ["Int", "Str"]))
    ∧ subclasscheck nominalEq (Obj.union ["Int", "Str"])
        (Obj.varsig (Obj.ty "Int")) = true
    ∧ subclasscheck nominalEq (Obj.ty "Int")
        (Obj.varsig (Obj.union ["Int", "Str"])) = false := by
  exact ⟨fun S C => rfl, fun S cs => rfl, rfl, rfl, by decide, by decide⟩

/-- Claim C5: pattern equality is order independent and duplicate
tolerant — for all class names T1 and T2, create((T1, T2)) compares
equal to create((T2, T1)) and to create((T1, T2, T1)), because equality
is decided solely by the canonical set of allowed element types. -/
theorem C5_order_independent (T1 T2 : String) :
    createdEq (GetItemArg.tup [Obj.ty T1, Obj.ty T2])
      (GetItemArg.tup [Obj.ty T2, Obj.ty T1]) = true
    ∧ createdEq (GetItemArg.tup [Obj.ty T1, Obj.ty T2])
      (GetItemArg.tup [Obj.ty T1, Obj.ty T2, Obj.ty T1]) = true := by
  by_cases h : T2 = T1
  · subst h
    have e1 : Variadic_getitem (GetItemArg.tup [Obj.ty T2, Obj.ty T2])
        = Except.ok (Obj.varsig (Obj.ty T2)) := by
      rw [getitem_tup]
      simp [mkUnion, flattenAll, flattenUnionArg, dedupFirst, dedupAux,
        List.contains, List.elem, Except.map]
    have e2 : Variadic_getitem (GetItemArg.tup [Obj.ty T2, Obj.ty T2, Obj.ty T2])
        = Except.ok (Obj.varsig (Obj.ty T2)) := by
      rw [getitem_tup]
      simp [mkUnion, flattenAll, flattenUnionArg, dedupFirst, dedupAux,
        List.contains, List.elem, Except.map]
    constructor <;> simp [createdEq, e1, e2, objEq]
  · have hb : (T2 == T1) = false := beq_eq_false_iff_ne.mpr h
    have hb2 : (T1 == T2) = false := beq_eq_false_iff_ne.mpr (fun hh => h hh.symm)
    have e1 := getitem_pair hb
    have e2 := getitem_pair hb2
    have e3 := getitem_triple hb hb2
    constructor
    · simp [createdEq, e1, e2, objEq, setEqStr, List.contains, List.elem,
        hb, hb2, h, Ne.symm h]
    · simp [createdEq, e1, e3, objEq, setEqStr, List.contains, List.elem,
        hb, hb2, h, Ne.symm h]

/-- Claim C6: for factory-produced patterns, comparing equal implies
hashing equal; in particular two separate create(T) calls with the same
type T compare equal and hash equal. -/
theorem C6_eq_implies_hash_eq :
    (∀ (a1 a2 : GetItemArg) (P Q : Obj),
      Variadic_getitem a1 = Except.ok P → Variadic_getitem a2 = Except.ok Q →
      objEq P Q = true → objHash P = objHash Q)
    ∧ (∀ T : String,
      createdEq (GetItemArg.obj (Obj.ty T)) (GetItemArg.obj (Obj.ty T)) = true
      ∧ createdHashEq (GetItemArg.obj (Obj.ty T)) (GetItemArg.obj (Obj.ty T)) = true) := by
  constructor
  · intro a1 a2 P Q h1 h2 heq
    exact objEq_hash P Q heq
  · intro T
    have h1 : Variadic_getitem (GetItemArg.obj (Obj.ty T))
        = Except.ok (Obj.varsig (Obj.ty T)) := rfl
    constructor
    · simp [createdEq, h1, objEq]
    · simp [createdHashEq, h1]

/-- Witness for C6 at a concrete input. -/
theorem C6_eq_implies_hash_eq_witness :
    objHash (Obj.varsig (Obj.ty "Int")) = objHash (Obj.varsig (Obj.ty "Int")) :=
  C6_eq_implies_hash_eq.1 (GetItemArg.obj (Obj.ty "Int")) (GetItemArg.obj (Obj.ty "Int"))
    (Obj.varsig (Obj.ty "Int")) (Obj.varsig (Obj.ty "Int")) rfl rfl (by decide)

/-- Claim C7: the pattern predicate is total and exact — true on every
factory-produced pattern, false on every ordinary type, union types
included. -/
theorem C7_isvariadic_exact :
    (∀ (arg : GetItemArg) (P : Obj),
      Variadic_getitem arg = Except.ok P → isvariadic P = true)
    ∧ (∀ T : String, isvariadic (Obj.ty T) = false)
    ∧ (∀ ns : List String, isvariadic (Obj.union ns) = false) := by
  refine ⟨?_, fun T => rfl, fun ns => rfl⟩
  intro arg P h
  obtain ⟨vt, rfl, -⟩ := getitem_ok_varsig h
  rfl

/-- Witness for C7 at a concrete input. -/
theorem C7_isvariadic_exact_witness :
    isvariadic (Obj.varsig (Obj.ty "Int")) = true :=
  C7_isvariadic_exact.1 (GetItemArg.obj (Obj.ty "Int")) (Obj.varsig (Obj.ty "Int")) rfl

/-- Claim C8: against the pattern create((Int, Str)) over pairwise
disjoint classes, the candidates Int and Str are compatible and the
candidate Float is not. -/
theorem C8_concrete_membership :
    Variadic_getitem (GetItemArg.tup [Obj.ty "Int", Obj.ty "Str"])
      = Except.ok (Obj.varsig (Obj.union ["Int", "Str"]))
    ∧ subclasscheck nominalEq (Obj.union ["Int", "Str"]) (Obj.ty "Int") = true
    ∧ subclasscheck nominalEq (Obj.union ["Int", "Str"]) (Obj.ty "Str") = true
    ∧ subclasscheck nominalEq (Obj.union ["Int", "Str"]) (Obj.ty "Float") = false :=
  ⟨rfl, by decide, by decide, by decide⟩

/-- Claim C9: compatibility is reflexive on patterns — whenever the
factory succeeds on some spec, the produced pattern is compatible with
a pattern produced from the same spec, for any reflexive primitive
oracle. -/
theorem C9_reflexive (sigma : String → String → Bool)
    (hrefl : ∀ a, sigma a a = true) :
    ∀ (arg : GetItemArg) (vt : Obj),
      Variadic_getitem arg = Except.ok (Obj.varsig vt) →
      subclasscheck sigma vt (Obj.varsig vt) = true := by
  intro arg vt h
  obtain ⟨vt2, heq, hmk⟩ := getitem_ok_varsig h
  injection heq with heq2
  subst heq2
  have hshape := mkUnion_ok_shape hmk
  have hred : subclasscheck sigma vt (Obj.varsig vt)
      = is_subtype sigma vt vt := rfl
  rw [hred]
  exact is_subtype_refl_flat sigma hrefl vt hshape

/-- Witness for C9 at a concrete input. -/
theorem C9_reflexive_witness :
    subclasscheck nominalEq (Obj.ty "Int") (Obj.varsig (Obj.ty "Int")) = true :=
  C9_reflexive nominalEq (fun a => beq_self_eq_true a)
    (GetItemArg.obj (Obj.ty "Int")) (Obj.ty "Int") rfl

/-- Claim C10: the factory normalizes a single-type spec to the
one-element tuple form — for every class name T both call forms produce
the very same pattern value, which compares equal and hashes equal. -/
theorem C10_single_equals_tuple (T : String) :
    Variadic_getitem (GetItemArg.obj (Obj.ty T))
      = Variadic_getitem (GetItemArg.tup [Obj.ty T])
    ∧ Variadic_getitem (GetItemArg.obj (Obj.ty T))
      = Except.ok (Obj.varsig (Obj.ty T))
    ∧ createdEq (GetItemArg.obj (Obj.ty T)) (GetItemArg.tup [Obj.ty T]) = true
    ∧ createdHashEq (GetItemArg.obj (Obj.ty T)) (GetItemArg.tup [Obj.ty T]) = true := by
  have h1 : Variadic_getitem (GetItemArg.obj (Obj.ty T))
      = Except.ok (Obj.varsig (Obj.ty T)) := rfl
  have h2 : Variadic_getitem (GetItemArg.tup [Obj.ty T])
      = Except.ok (Obj.varsig (Obj.ty T)) := rfl
  refine ⟨h1.trans h2.symm, h1, ?_, ?_⟩
  · simp [createdEq, h1, h2, objEq]
  · simp [createdHashEq, h1, h2]
